import Mathlib

/-!
Shallow embedding of the Welcome Wizard plugin views
(`welcome_wizard/views.py`) and proofs about them.

The plugin is view/controller glue over a web framework: the embedding
models the framework collaborators (ORM tables, job queue, permission
check, form validation, query-string access) as explicit data so that the
control flow of the plugin code itself is captured faithfully:

* `check_sync` embeds the module-level `check_sync(instance, request)`
  function: the feature flag `enable_devicetype-library` and the
  emptiness of the list queryset become booleans, the `GitRepository`
  table becomes a list of records, and a fire-and-forget call to
  `enqueue_pull_git_repository_and_refresh_data(repo, request.user)` is
  recorded as a `SyncRequest`.
* `bulkImportGet` / `bulkImportPost` embed `BulkImportView.get` and
  `BulkImportView.post`.  The two concrete subclasses fix
  `self.model` to `ManufacturerImport` or `DeviceTypeImport`, embedded
  as the enumeration `ImportModel`.  Django form validation and the
  permission check are booleans supplied by the environment; the records
  of the import table are `ImportRecord` values (manufacturer rows use
  `name`, device-type rows use `name` and `filename`).  Django returns
  the last value of a repeated query-string key from
  `request.GET["pk"]`, so the GET embedding reads `List.getLast?` of the
  values submitted under the key `pk`.
* `check_data` embeds `WelcomeWizardDashboard.check_data`: the `Merlin`
  table is a list of `MerlinEntry` rows, `<Model>.objects.exists()` is a
  boolean-valued existence check per tracked model, and the uncaught
  `MultipleObjectsReturned` exception from `Merlin.objects.get` is an
  `Except.error` that aborts the remaining iterations, exactly as an
  exception aborts the Python for-loop.
-/

namespace WelcomeWizard

/-! ## Git repository sync (`check_sync`) -/

/-- A row of the `GitRepository` table, with the fields `check_sync`
touches. -/
structure GitRepository where
  name : String
  slug : String
  remote_url : String
  provided_contents : List String
  branch : String
deriving DecidableEq, Repr

/-- The repository record created by `check_sync` when no record with
slug `devicetype_library` exists. -/
def default_devicetype_repo : GitRepository :=
  { name := "Devicetype-library"
    slug := "devicetype_library"
    remote_url := "https://github.com/netbox-community/devicetype-library.git"
    provided_contents := ["welcome_wizard.import_wizard"]
    branch := "master" }

/-- A recorded call to `enqueue_pull_git_repository_and_refresh_data`. -/
structure SyncRequest where
  repo : GitRepository
  user : String
deriving DecidableEq, Repr

/-- `check_sync(instance, request)`: if the `enable_devicetype-library`
flag is set and the queryset of the list view has no rows, fetch (or
create and save) the `devicetype_library` repository record and enqueue a
pull of it as `request.user`.  Returns the `GitRepository` table after
the call together with the list of sync enqueues performed. -/
def check_sync (enable_devicetype_library : Bool) (queryset_has_rows : Bool)
    (user : String) (repos : List GitRepository) :
    List GitRepository × List SyncRequest :=
  if enable_devicetype_library && !queryset_has_rows then
    match repos.find? (fun r => r.slug = "devicetype_library") with
    | some repo => (repos, [⟨repo, user⟩])
    | none =>
        (repos ++ [default_devicetype_repo], [⟨default_devicetype_repo, user⟩])
  else
    (repos, [])

/-- Result of a GET on `ManufacturerListView` / `DeviceTypeListView`:
the repository table after `check_sync`, the syncs it enqueued, and the
fact that the list page is then rendered by `super().get`. -/
structure ListViewRender where
  repos_after : List GitRepository
  sync_requests : List SyncRequest
  rendered_list : Bool
deriving DecidableEq, Repr

/-- `ManufacturerListView.get` / `DeviceTypeListView.get`: run
`check_sync`, then render the list via `super().get`. -/
def wizardListViewGet (enable_devicetype_library : Bool)
    (queryset_has_rows : Bool) (user : String)
    (repos : List GitRepository) : ListViewRender :=
  let result := check_sync enable_devicetype_library queryset_has_rows user repos
  { repos_after := result.1, sync_requests := result.2, rendered_list := true }

/-! ## Bulk import views (`BulkImportView`) -/

/-- The two values of `self.model` used by the concrete subclasses
(`ManufacturerBulkImportView`, `DeviceTypeBulkImportView`). -/
inductive ImportModel
  | manufacturerImport
  | deviceTypeImport
deriving DecidableEq, Repr

/-- A row of the `ManufacturerImport` / `DeviceTypeImport` table: a
primary key, a display name and (for device types) a definition
filename. -/
structure ImportRecord where
  pk : String
  name : String
  filename : String
deriving DecidableEq, Repr

/-- Keyword arguments passed to `JobResult.enqueue_job`. -/
inductive JobKwargs
  | manufacturer_name (v : String)
  | filename (v : String)
deriving DecidableEq, Repr

/-- A recorded call to `JobResult.enqueue_job(job_model=..., user=...,
**kwargs)`, identified by the looked-up job name. -/
structure EnqueuedJob where
  job_name : String
  user : String
  kwargs : JobKwargs
deriving DecidableEq, Repr

/-- The job enqueued by the body of the `for obj in
self.model.objects.filter(pk__in=pk_list)` loop for one matched
record. -/
def mkImportJob (model : ImportModel) (user : String)
    (obj : ImportRecord) : EnqueuedJob :=
  match model with
  | .manufacturerImport =>
      ⟨"Welcome Wizard - Import Manufacturer", user,
        JobKwargs.manufacturer_name obj.name⟩
  | .deviceTypeImport =>
      ⟨"Welcome Wizard - Import Device Type", user,
        JobKwargs.filename obj.filename⟩

/-- HTTP-level result of `BulkImportView.post`. -/
inductive PostResponse
  | forbidden
  | redirect (url : String)
deriving DecidableEq, Repr

/-- Full outcome of `BulkImportView.post`: the response plus the side
effects performed (jobs enqueued, `messages.success` calls). -/
structure PostOutcome where
  response : PostResponse
  enqueued : List EnqueuedJob
  success_messages : List String
deriving DecidableEq, Repr

/-- `BulkImportView.post(request)`.  `has_permission` is the result of
`self.has_permission()` for the add permission, `form_valid` the result
of `form.is_valid()` on the posted data, `db` the rows of
`self.model.objects`, and `pk_list` the value of
`request.POST.getlist("pk")`. -/
def bulkImportPost (model : ImportModel) (return_url : String)
    (has_permission : Bool) (form_valid : Bool) (user : String)
    (db : List ImportRecord) (pk_list : List String) : PostOutcome :=
  if has_permission = false then
    { response := PostResponse.forbidden, enqueued := [], success_messages := [] }
  else if form_valid then
    let matched := db.filter (fun obj => pk_list.contains obj.pk)
    let jobs := matched.map (mkImportJob model user)
    let onboarded := matched.map (fun obj => obj.name)
    { response := PostResponse.redirect return_url
      enqueued := jobs
      success_messages :=
        ["Onboarded " ++ toString onboarded.length ++ " objects."] }
  else
    { response := PostResponse.redirect return_url, enqueued := [],
      success_messages := [] }

/-- Result of `BulkImportView.get`: either an immediate redirect, the
uncaught `DoesNotExist` exception from `self.model.objects.get`, or a
render of `welcome_wizard/import.html` with the looked-up object and the
`pk` list placed in the initial data of the form. -/
inductive GetResponse
  | redirect (url : String)
  | doesNotExist
  | renderImportForm (obj : ImportRecord) (form_pk_initial : List String)
deriving DecidableEq, Repr

/-- `BulkImportView.get(request)`.  `pk_values` is the list of values
submitted under the query-string key `pk`; Django query dictionaries
resolve `request.GET.get("pk")` and `request.GET["pk"]` to the last
value, and an absent or empty value is falsy and redirects. -/
def bulkImportGet (return_url : String) (db : List ImportRecord)
    (pk_values : List String) : GetResponse :=
  match pk_values.getLast? with
  | none => GetResponse.redirect return_url
  | some primarykey =>
      if primarykey = "" then GetResponse.redirect return_url
      else
        match db.find? (fun obj => obj.pk = primarykey) with
        | none => GetResponse.doesNotExist
        | some obj => GetResponse.renderImportForm obj [primarykey]

/-! ## Dashboard reconciliation (`WelcomeWizardDashboard.check_data`) -/

/-- A row of the `Merlin` status table, with the fields `check_data`
reads and writes. -/
structure MerlinEntry where
  name : String
  completed : Bool
  ignored : Bool
  nautobot_model : String
  nautobot_add_link : String
  merlin_link : String
  nautobot_list_link : String
deriving DecidableEq, Repr

/-- One tuple `(nautobot_object, var_name, list_url, new_url,
wizard_url)` of the fixed list iterated by `check_data`; the tracked
model class is embedded by its name. -/
structure CategoryDescriptor where
  nautobot_object : String
  var_name : String
  list_url : String
  new_url : String
  wizard_url : String
deriving DecidableEq, Repr

/-- The seven fixed category descriptors from `check_data`, in source
order. -/
def dashboard_categories : List CategoryDescriptor :=
  [ ⟨"Location", "Locations", "dcim:location_list", "dcim:location_add", ""⟩,
    ⟨"Manufacturer", "Manufacturers", "dcim:manufacturer_list",
      "dcim:manufacturer_add", "plugins:welcome_wizard:manufacturer_import"⟩,
    ⟨"DeviceType", "Device Types", "dcim:devicetype_list",
      "dcim:devicetype_add", "plugins:welcome_wizard:devicetype_import"⟩,
    ⟨"CircuitType", "Circuit Types", "circuits:circuittype_list",
      "circuits:circuittype_add", ""⟩,
    ⟨"Provider", "Circuit Providers", "circuits:provider_list",
      "circuits:provider_add", ""⟩,
    ⟨"RIR", "RIRs", "ipam:rir_list", "ipam:rir_add", ""⟩,
    ⟨"ClusterType", "VM Cluster Types", "virtualization:clustertype_list",
      "virtualization:clustertype_add", ""⟩ ]

/-- The row built by `Merlin.objects.create(...)` in `check_data`. -/
def newMerlin (d : CategoryDescriptor) (completed : Bool) : MerlinEntry :=
  { name := d.var_name
    completed := completed
    ignored := false
    nautobot_model := d.nautobot_object
    nautobot_add_link := d.new_url
    merlin_link := d.wizard_url
    nautobot_list_link := d.list_url }

/-- `Merlin.objects.filter(name=var_name).update(completed=c)`: the
table after setting `completed` on every row named `var_name`. -/
def merlin_update (var_name : String) (c : Bool)
    (entries : List MerlinEntry) : List MerlinEntry :=
  entries.map (fun e =>
    if e.name = var_name then { e with completed := c } else e)

/-- One iteration of the `check_data` loop for descriptor `d`:
recompute `completed` from the existence check, run
`Merlin.objects.filter(name=var_name).update(completed=completed)`, then
`Merlin.objects.get(name=var_name)` — which raises an uncaught
`MultipleObjectsReturned` when several rows share the name — and create
the row when the `get` raised `DoesNotExist`. -/
def check_data_step (existsCheck : String → Bool)
    (entries : List MerlinEntry) (d : CategoryDescriptor) :
    Except String (List MerlinEntry) :=
  match (merlin_update d.var_name (existsCheck d.nautobot_object)
      entries).filter (fun e => e.name = d.var_name) with
  | [] =>
      Except.ok (merlin_update d.var_name (existsCheck d.nautobot_object) entries
        ++ [newMerlin d (existsCheck d.nautobot_object)])
  | [_] =>
      Except.ok (merlin_update d.var_name (existsCheck d.nautobot_object) entries)
  | _ :: _ :: _ => Except.error "MultipleObjectsReturned"

/-- The `for` loop of `check_data` over a descriptor list: an exception
in one iteration aborts the remaining iterations, as in Python. -/
def check_data_loop (existsCheck : String → Bool) :
    List CategoryDescriptor → List MerlinEntry →
    Except String (List MerlinEntry)
  | [], entries => Except.ok entries
  | d :: ds, entries =>
      match check_data_step existsCheck entries d with
      | Except.error e => Except.error e
      | Except.ok updated => check_data_loop existsCheck ds updated

/-- `WelcomeWizardDashboard.check_data()`: iterate the seven fixed
descriptors over the current `Merlin` table.  `existsCheck m` is the
result of `<m>.objects.exists()` at the time of the run. -/
def check_data (existsCheck : String → Bool)
    (entries : List MerlinEntry) : Except String (List MerlinEntry) :=
  check_data_loop existsCheck dashboard_categories entries

/-- The `Merlin` table produced by the first `check_data` run on an
empty table when none of the tracked models has rows: used to witness
the reconciliation theorems on concrete data. -/
def merlin_after_first_run : List MerlinEntry :=
  [ ⟨"Locations", false, false, "Location", "dcim:location_add", "",
      "dcim:location_list"⟩,
    ⟨"Manufacturers", false, false, "Manufacturer", "dcim:manufacturer_add",
      "plugins:welcome_wizard:manufacturer_import", "dcim:manufacturer_list"⟩,
    ⟨"Device Types", false, false, "DeviceType", "dcim:devicetype_add",
      "plugins:welcome_wizard:devicetype_import", "dcim:devicetype_list"⟩,
    ⟨"Circuit Types", false, false, "CircuitType", "circuits:circuittype_add",
      "", "circuits:circuittype_list"⟩,
    ⟨"Circuit Providers", false, false, "Provider", "circuits:provider_add",
      "", "circuits:provider_list"⟩,
    ⟨"RIRs", false, false, "RIR", "ipam:rir_add", "", "ipam:rir_list"⟩,
    ⟨"VM Cluster Types", false, false, "ClusterType",
      "virtualization:clustertype_add", "", "virtualization:clustertype_list"⟩ ]

/-! ## Helper lemmas -/

/-- Whenever the flag is on and the table is empty, `check_sync`
enqueues exactly one pull, whatever the repository table holds. -/
lemma check_sync_triggers_once (user : String) (repos : List GitRepository) :
    (check_sync true false user repos).2.length = 1 := by
  unfold check_sync
  cases hf : repos.find? (fun r => r.slug = "devicetype_library") <;> simp [hf]

/-- Filtering by any name commutes with the `completed` update, because
the update never changes names. -/
lemma filter_merlin_update (n var_name : String) (c : Bool)
    (entries : List MerlinEntry) :
    (merlin_update var_name c entries).filter (fun e => e.name = n)
      = (entries.filter (fun e => e.name = n)).map
          (fun e => if e.name = var_name then { e with completed := c } else e) := by
  unfold merlin_update
  rw [List.filter_map]
  congr 1
  apply List.filter_congr
  intro e _
  by_cases hv : e.name = var_name <;> simp [hv]

/-- The update leaves rows of every other name untouched. -/
lemma filter_merlin_update_ne {n var_name : String} (h : n ≠ var_name)
    (c : Bool) (entries : List MerlinEntry) :
    (merlin_update var_name c entries).filter (fun e => e.name = n)
      = entries.filter (fun e => e.name = n) := by
  rw [filter_merlin_update]
  conv_rhs => rw [← List.map_id (entries.filter (fun e => e.name = n))]
  apply List.map_congr_left
  intro e he
  have hn : e.name = n := by
    have := (List.mem_filter.mp he).2
    simpa using this
  rw [if_neg (fun hc => h (hn.symm.trans hc))]
  rfl

/-- On rows of the updated name, the update sets `completed`. -/
lemma filter_merlin_update_own (var_name : String) (c : Bool)
    (entries : List MerlinEntry) :
    (merlin_update var_name c entries).filter (fun e => e.name = var_name)
      = (entries.filter (fun e => e.name = var_name)).map
          (fun e => { e with completed := c }) := by
  rw [filter_merlin_update]
  apply List.map_congr_left
  intro e he
  have hn : e.name = var_name := by
    have := (List.mem_filter.mp he).2
    simpa using this
  rw [if_pos hn]

/-- A successful `check_data` iteration leaves exactly one row with the
descriptor name, and its `completed` field is the existence check. -/
lemma check_data_step_ok_own {ec : String → Bool}
    {entries mid : List MerlinEntry} {d : CategoryDescriptor}
    (h : check_data_step ec entries d = Except.ok mid) :
    ∃ e, mid.filter (fun x => x.name = d.var_name) = [e]
      ∧ e.completed = ec d.nautobot_object := by
  unfold check_data_step at h
  rw [filter_merlin_update_own] at h
  cases hf : entries.filter (fun e => e.name = d.var_name) with
  | nil =>
      rw [hf] at h
      simp only [List.map_nil] at h
      cases h
      refine ⟨newMerlin d (ec d.nautobot_object), ?_, rfl⟩
      rw [List.filter_append, filter_merlin_update_own, hf]
      simp [newMerlin]
  | cons x xs =>
      cases xs with
      | nil =>
          rw [hf] at h
          simp only [List.map_cons, List.map_nil] at h
          cases h
          refine ⟨{ x with completed := ec d.nautobot_object }, ?_, rfl⟩
          rw [filter_merlin_update_own, hf]
          rfl
      | cons y ys =>
          rw [hf] at h
          simp only [List.map_cons] at h
          exact Except.noConfusion h

/-- When no row with the descriptor name existed, the successful
iteration appends exactly the row built by `Merlin.objects.create`. -/
lemma check_data_step_ok_create {ec : String → Bool}
    {entries mid : List MerlinEntry} {d : CategoryDescriptor}
    (h : check_data_step ec entries d = Except.ok mid)
    (hempty : entries.filter (fun x => x.name = d.var_name) = []) :
    mid.filter (fun x => x.name = d.var_name)
      = [newMerlin d (ec d.nautobot_object)] := by
  unfold check_data_step at h
  rw [filter_merlin_update_own, hempty] at h
  simp only [List.map_nil] at h
  cases h
  rw [List.filter_append, filter_merlin_update_own, hempty]
  simp [newMerlin]

/-- A successful `check_data` iteration for descriptor `d` leaves the
rows of every other name exactly as they were. -/
lemma check_data_step_filter_ne {ec : String → Bool}
    {entries mid : List MerlinEntry} {d : CategoryDescriptor}
    (h : check_data_step ec entries d = Except.ok mid)
    {n : String} (hne : n ≠ d.var_name) :
    mid.filter (fun e => e.name = n) = entries.filter (fun e => e.name = n) := by
  unfold check_data_step at h
  rw [filter_merlin_update_own] at h
  cases hf : entries.filter (fun e => e.name = d.var_name) with
  | nil =>
      rw [hf] at h
      simp only [List.map_nil] at h
      cases h
      rw [List.filter_append, filter_merlin_update_ne hne]
      simp [newMerlin, Ne.symm hne]
  | cons x xs =>
      cases xs with
      | nil =>
          rw [hf] at h
          simp only [List.map_cons, List.map_nil] at h
          cases h
          exact filter_merlin_update_ne hne _ _
      | cons y ys =>
          rw [hf] at h
          simp only [List.map_cons] at h
          exact Except.noConfusion h

/-- A successful run of the loop leaves the rows of every name not
among the visited descriptors exactly as they were. -/
lemma check_data_loop_filter_ne (ec : String → Bool)
    (ds : List CategoryDescriptor) (entries out : List MerlinEntry)
    (n : String) (h : check_data_loop ec ds entries = Except.ok out)
    (hn : ∀ d ∈ ds, n ≠ d.var_name) :
    out.filter (fun e => e.name = n) = entries.filter (fun e => e.name = n) := by
  induction ds generalizing entries with
  | nil =>
      unfold check_data_loop at h
      cases h
      rfl
  | cons d ds ih =>
      unfold check_data_loop at h
      cases hstep : check_data_step ec entries d with
      | error e =>
          rw [hstep] at h
          exact Except.noConfusion h
      | ok mid =>
          rw [hstep] at h
          rw [ih mid h (fun d' hd' => hn d' (List.mem_cons_of_mem _ hd'))]
          exact check_data_step_filter_ne hstep (hn d (List.mem_cons_self _ _))

/-- Main loop invariant: after a successful run over descriptors with
pairwise distinct names, each visited descriptor has exactly one row,
its `completed` is the current existence check, and a descriptor that
had no row got exactly the freshly created row. -/
lemma check_data_loop_upsert (ec : String → Bool)
    (ds : List CategoryDescriptor) (entries out : List MerlinEntry)
    (h : check_data_loop ec ds entries = Except.ok out)
    (hnd : (ds.map (fun d => d.var_name)).Nodup)
    (d : CategoryDescriptor) (hd : d ∈ ds) :
    (∃ e, out.filter (fun x => x.name = d.var_name) = [e]
        ∧ e.completed = ec d.nautobot_object)
    ∧ (entries.filter (fun x => x.name = d.var_name) = [] →
        out.filter (fun x => x.name = d.var_name)
          = [newMerlin d (ec d.nautobot_object)]) := by
  induction ds generalizing entries with
  | nil => cases hd
  | cons d0 ds ih =>
      unfold check_data_loop at h
      cases hstep : check_data_step ec entries d0 with
      | error e =>
          rw [hstep] at h
          exact Except.noConfusion h
      | ok mid =>
          rw [hstep] at h
          rw [List.map_cons, List.nodup_cons] at hnd
          obtain ⟨hnotin, hnd2⟩ := hnd
          rcases List.mem_cons.mp hd with rfl | hd2
          · have hne : ∀ d2 ∈ ds, d.var_name ≠ d2.var_name := by
              intro d2 hd2 heq
              exact hnotin (heq ▸ List.mem_map_of_mem _ hd2)
            have hpres : out.filter (fun x => x.name = d.var_name)
                = mid.filter (fun x => x.name = d.var_name) :=
              check_data_loop_filter_ne ec ds mid out d.var_name h hne
            constructor
            · obtain ⟨e, he, hc⟩ := check_data_step_ok_own hstep
              exact ⟨e, by rw [hpres, he], hc⟩
            · intro hempty
              rw [hpres, check_data_step_ok_create hstep hempty]
          · have hne0 : d.var_name ≠ d0.var_name := by
              intro heq
              exact hnotin (heq ▸ List.mem_map_of_mem _ hd2)
            have hrec := ih mid h hnd2 hd2
            refine ⟨hrec.1, fun hempty => hrec.2 ?_⟩
            rw [check_data_step_filter_ne hstep hne0, hempty]

/-- If every row named `vn` already carries `completed = c`, the update
is the identity on the table. -/
lemma merlin_update_self (vn : String) (c : Bool) (out : List MerlinEntry)
    (hx : ∀ x ∈ out, x.name = vn → x.completed = c) :
    merlin_update vn c out = out := by
  unfold merlin_update
  conv_rhs => rw [← List.map_id out]
  apply List.map_congr_left
  intro e he
  by_cases hv : e.name = vn
  · rw [if_pos hv, ← hx e he hv]
    rfl
  · rw [if_neg hv]
    rfl

/-- A `check_data` iteration on a table already reconciled for `d` is
the identity. -/
lemma check_data_step_self (ec : String → Bool) (d : CategoryDescriptor)
    (out : List MerlinEntry)
    (h1 : ∃ e, out.filter (fun x => x.name = d.var_name) = [e]
        ∧ e.completed = ec d.nautobot_object) :
    check_data_step ec out d = Except.ok out := by
  obtain ⟨e, he, hc⟩ := h1
  have hupd : merlin_update d.var_name (ec d.nautobot_object) out = out := by
    apply merlin_update_self
    intro x hmem hxn
    have hx : x ∈ out.filter (fun z => z.name = d.var_name) :=
      List.mem_filter.mpr ⟨hmem, by simp [hxn]⟩
    rw [he] at hx
    have hxe : x = e := by simpa using hx
    rw [hxe, hc]
  unfold check_data_step
  rw [hupd, he]

/-- A loop whose every iteration is the identity is the identity. -/
lemma check_data_loop_self (ec : String → Bool)
    (ds : List CategoryDescriptor) (out : List MerlinEntry)
    (hsteps : ∀ d ∈ ds, check_data_step ec out d = Except.ok out) :
    check_data_loop ec ds out = Except.ok out := by
  induction ds with
  | nil => rfl
  | cons d ds ih =>
      unfold check_data_loop
      rw [hsteps d (List.mem_cons_self _ _)]
      exact ih (fun d2 hd2 => hsteps d2 (List.mem_cons_of_mem _ hd2))

/-! ## Claims about the bulk import views -/

/-- C1: for every valid, permitted submission, `BulkImportView.post`
enqueues exactly one job per record matched by the submitted pk list, in
table order; identifiers with no matching record contribute nothing and
raise no error; the job name and keyword arguments are selected by the
configured model: `Welcome Wizard - Import Manufacturer` with
`manufacturer_name = obj.name` for `ManufacturerImport`, and
`Welcome Wizard - Import Device Type` with `filename = obj.filename` for
`DeviceTypeImport`.  For two identifiers matching manufacturers named
Cisco and Juniper, exactly the two corresponding jobs are enqueued. -/
theorem bulk_import_post_enqueues_one_job_per_match
    (model : ImportModel) (return_url user : String)
    (db : List ImportRecord) (pk_list : List String) :
    (bulkImportPost model return_url true true user db pk_list).enqueued
        = (db.filter (fun obj => pk_list.contains obj.pk)).map (mkImportJob model user)
    ∧ (∀ obj ∈ db, pk_list.contains obj.pk →
        mkImportJob model user obj
          ∈ (bulkImportPost model return_url true true user db pk_list).enqueued)
    ∧ (∀ j ∈ (bulkImportPost model return_url true true user db pk_list).enqueued,
        ∃ obj, obj ∈ db ∧ pk_list.contains obj.pk ∧ j = mkImportJob model user obj)
    ∧ (∀ obj, mkImportJob ImportModel.manufacturerImport user obj
        = ⟨"Welcome Wizard - Import Manufacturer", user,
            JobKwargs.manufacturer_name obj.name⟩)
    ∧ (∀ obj, mkImportJob ImportModel.deviceTypeImport user obj
        = ⟨"Welcome Wizard - Import Device Type", user,
            JobKwargs.filename obj.filename⟩)
    ∧ (bulkImportPost ImportModel.manufacturerImport return_url true true user
          [⟨"A", "Cisco", ""⟩, ⟨"B", "Juniper", ""⟩] ["A", "B"]).enqueued
        = [⟨"Welcome Wizard - Import Manufacturer", user,
              JobKwargs.manufacturer_name "Cisco"⟩,
           ⟨"Welcome Wizard - Import Manufacturer", user,
              JobKwargs.manufacturer_name "Juniper"⟩] := by
  refine ⟨rfl, ?_, ?_, fun obj => rfl, fun obj => rfl, rfl⟩
  · intro obj hmem hpk
    simp only [bulkImportPost, if_neg (by decide : ¬ (true = false)), if_pos rfl]
    exact List.mem_map_of_mem _ (List.mem_filter.mpr ⟨hmem, hpk⟩)
  · intro j hj
    simp only [bulkImportPost, if_neg (by decide : ¬ (true = false)), if_pos rfl]
      at hj
    obtain ⟨obj, hobj, rfl⟩ := List.mem_map.mp hj
    obtain ⟨hmem, hpk⟩ := List.mem_filter.mp hobj
    exact ⟨obj, hmem, hpk, rfl⟩

/-- Witness for C1: the Cisco/Juniper selection enqueues exactly the
two manufacturer jobs. -/
theorem bulk_import_post_enqueues_one_job_per_match_witness :
    (bulkImportPost ImportModel.manufacturerImport "ret" true true "alice"
        [⟨"A", "Cisco", ""⟩, ⟨"B", "Juniper", ""⟩] ["A", "B"]).enqueued
      = [⟨"Welcome Wizard - Import Manufacturer", "alice",
            JobKwargs.manufacturer_name "Cisco"⟩,
         ⟨"Welcome Wizard - Import Manufacturer", "alice",
            JobKwargs.manufacturer_name "Juniper"⟩] :=
  (bulk_import_post_enqueues_one_job_per_match ImportModel.manufacturerImport
      "ret" "alice" [⟨"A", "Cisco", ""⟩, ⟨"B", "Juniper", ""⟩]
      ["A", "B"]).2.2.2.2.2

/-- C4: `BulkImportView.post` without the add permission returns
`HttpResponseForbidden` and performs no side effects at all — no job
enqueued, no message, no redirect — whatever the form data. -/
theorem bulk_import_post_forbidden_no_side_effects
    (model : ImportModel) (return_url : String) (form_valid : Bool)
    (user : String) (db : List ImportRecord) (pk_list : List String) :
    bulkImportPost model return_url false form_valid user db pk_list
      = { response := PostResponse.forbidden, enqueued := [],
          success_messages := [] } := rfl

/-- C5: every valid, permitted submission redirects to the configured
return url and emits exactly the message `Onboarded {n} objects.` with
`n` the number of jobs enqueued; with an empty pk list, or one matching
no record, zero jobs are enqueued and the message still reports zero. -/
theorem bulk_import_post_reports_enqueue_count
    (model : ImportModel) (return_url user : String)
    (db : List ImportRecord) (pk_list : List String) :
    (bulkImportPost model return_url true true user db pk_list).response
        = PostResponse.redirect return_url
    ∧ (bulkImportPost model return_url true true user db pk_list).success_messages
        = ["Onboarded "
            ++ toString (bulkImportPost model return_url true true user db
                pk_list).enqueued.length
            ++ " objects."]
    ∧ (db.filter (fun obj => pk_list.contains obj.pk) = [] →
        bulkImportPost model return_url true true user db pk_list
          = { response := PostResponse.redirect return_url, enqueued := [],
              success_messages := ["Onboarded 0 objects."] })
    ∧ bulkImportPost model return_url true true user db []
        = { response := PostResponse.redirect return_url, enqueued := [],
            success_messages := ["Onboarded 0 objects."] } := by
  have hzero : ∀ pks : List String,
      db.filter (fun obj => pks.contains obj.pk) = [] →
      bulkImportPost model return_url true true user db pks
        = { response := PostResponse.redirect return_url, enqueued := [],
            success_messages := ["Onboarded 0 objects."] } := by
    intro pks h
    simp only [bulkImportPost, if_neg (by decide : ¬ (true = false)), if_pos rfl, h]
    rfl
  refine ⟨rfl, ?_, hzero pk_list, hzero [] ?_⟩
  · simp only [bulkImportPost, if_neg (by decide : ¬ (true = false)), if_pos rfl]
    simp [List.length_map]
  · simp [List.filter_eq_nil_iff]

/-- Witness for C5 at a concrete store and a pk list matching no
record. -/
theorem bulk_import_post_reports_enqueue_count_witness :
    bulkImportPost ImportModel.manufacturerImport "ret" true true "alice"
        [⟨"A", "Cisco", ""⟩] ["Z"]
      = { response := PostResponse.redirect "ret", enqueued := [],
          success_messages := ["Onboarded 0 objects."] } :=
  (bulk_import_post_reports_enqueue_count ImportModel.manufacturerImport
      "ret" "alice" [⟨"A", "Cisco", ""⟩] ["Z"]).2.2.1 (by decide)

/-- C7: a permitted submission whose form data fails validation is a
no-op apart from the redirect: no job enqueued and no message of any
kind. -/
theorem bulk_import_post_invalid_form_noop
    (model : ImportModel) (return_url user : String)
    (db : List ImportRecord) (pk_list : List String) :
    bulkImportPost model return_url true false user db pk_list
      = { response := PostResponse.redirect return_url, enqueued := [],
          success_messages := [] } := rfl

/-- C8: a GET with no `pk` value redirects immediately to the
configured return url; no record is looked up and no form is
rendered. -/
theorem bulk_import_get_empty_selection_redirects
    (return_url : String) (db : List ImportRecord) :
    bulkImportGet return_url db [] = GetResponse.redirect return_url := rfl

/-- Counterexample to C6: with records Cisco (pk `A`) and Juniper
(pk `B`) and the selection `[A, B]`, the view renders the record of the
last identifier with form state `[B]` only — not the first identifier
with the full list `[A, B]`, and no preview object is rendered together
with the full list. -/
theorem bulk_import_get_drops_selection_counterexample :
    bulkImportGet "ret" [⟨"A", "Cisco", ""⟩, ⟨"B", "Juniper", ""⟩] ["A", "B"]
        = GetResponse.renderImportForm ⟨"B", "Juniper", ""⟩ ["B"]
    ∧ bulkImportGet "ret" [⟨"A", "Cisco", ""⟩, ⟨"B", "Juniper", ""⟩] ["A", "B"]
        ≠ GetResponse.renderImportForm ⟨"A", "Cisco", ""⟩ ["A", "B"]
    ∧ ∀ obj : ImportRecord,
        bulkImportGet "ret" [⟨"A", "Cisco", ""⟩, ⟨"B", "Juniper", ""⟩] ["A", "B"]
          ≠ GetResponse.renderImportForm obj ["A", "B"] := by
  refine ⟨by decide, by decide, ?_⟩
  intro obj h
  have h2 : GetResponse.renderImportForm ⟨"B", "Juniper", ""⟩ ["B"]
      = GetResponse.renderImportForm obj ["A", "B"] :=
    Eq.trans (by decide :
      GetResponse.renderImportForm ⟨"B", "Juniper", ""⟩ ["B"]
        = bulkImportGet "ret" [⟨"A", "Cisco", ""⟩, ⟨"B", "Juniper", ""⟩]
            ["A", "B"]) h
  simp at h2

/-- C6 amended: for every non-empty selection, `BulkImportView.get`
looks up the record of the LAST submitted `pk` value as the preview
object, and the rendered form is pre-populated with the one-element
identifier list holding only that value; the other selected identifiers
are not carried into the form. -/
theorem bulk_import_get_renders_last_pk_only
    (return_url : String) (db : List ImportRecord) (pk_values : List String)
    (pk : String) (obj : ImportRecord)
    (hlast : pk_values.getLast? = some pk) (hne : pk ≠ "")
    (hfind : db.find? (fun o => o.pk = pk) = some obj) :
    bulkImportGet return_url db pk_values
      = GetResponse.renderImportForm obj [pk] := by
  unfold bulkImportGet
  rw [hlast]
  simp only [if_neg hne, hfind]

/-- Witness for the amended C6 at a concrete selection of two
identifiers. -/
theorem bulk_import_get_renders_last_pk_only_witness :
    bulkImportGet "ret" [⟨"A", "Cisco", ""⟩, ⟨"B", "Juniper", ""⟩] ["A", "B"]
      = GetResponse.renderImportForm ⟨"B", "Juniper", ""⟩ ["B"] :=
  bulk_import_get_renders_last_pk_only "ret"
    [⟨"A", "Cisco", ""⟩, ⟨"B", "Juniper", ""⟩] ["A", "B"] "B"
    ⟨"B", "Juniper", ""⟩ rfl (by decide) rfl

/-! ## Claims about the sync trigger -/

/-- C9: a wizard list view GET triggers the git sync exactly once iff
the `enable_devicetype-library` flag is set and the table is empty,
never otherwise; and no guard prevents the very next empty-table render
from triggering it again. -/
theorem list_view_sync_trigger_iff_flag_and_empty
    (flag rows : Bool) (user : String) (repos : List GitRepository) :
    (wizardListViewGet flag rows user repos).sync_requests.length
        = (if flag && !rows then 1 else 0)
    ∧ (wizardListViewGet flag rows user repos).rendered_list = true
    ∧ ((wizardListViewGet true false user
          (wizardListViewGet flag rows user repos).repos_after).sync_requests).length
        = 1 := by
  refine ⟨?_, rfl, ?_⟩
  · cases flag with
    | false => simp [wizardListViewGet, check_sync]
    | true =>
        cases rows with
        | true => simp [wizardListViewGet, check_sync]
        | false => simpa [wizardListViewGet] using check_sync_triggers_once user repos
  · simpa [wizardListViewGet] using
      check_sync_triggers_once user
        (wizardListViewGet flag rows user repos).repos_after

/-- Witness for C9: with the flag on and an empty table one sync fires;
with the flag off none does. -/
theorem list_view_sync_trigger_iff_flag_and_empty_witness :
    (wizardListViewGet true false "alice" []).sync_requests.length = 1
    ∧ (wizardListViewGet false false "alice" []).sync_requests.length = 0 :=
  ⟨(list_view_sync_trigger_iff_flag_and_empty true false "alice" []).1,
   (list_view_sync_trigger_iff_flag_and_empty false false "alice" []).1⟩

/-- C10: when the sync is to be triggered and no repository with slug
`devicetype_library` exists, `check_sync` first creates and saves one
with the fixed name, remote url, branch and provided contents, then
enqueues the pull of that repository as the requesting user. -/
theorem check_sync_creates_default_repo (user : String)
    (repos : List GitRepository)
    (h : repos.find? (fun r => r.slug = "devicetype_library") = none) :
    check_sync true false user repos
        = (repos ++ [default_devicetype_repo],
           [⟨default_devicetype_repo, user⟩])
    ∧ default_devicetype_repo.name = "Devicetype-library"
    ∧ default_devicetype_repo.slug = "devicetype_library"
    ∧ default_devicetype_repo.remote_url
        = "https://github.com/netbox-community/devicetype-library.git"
    ∧ default_devicetype_repo.branch = "master"
    ∧ default_devicetype_repo.provided_contents
        = ["welcome_wizard.import_wizard"] := by
  refine ⟨?_, rfl, rfl, rfl, rfl, rfl⟩
  unfold check_sync
  simp [h]

/-- Witness for C10 on an empty repository table. -/
theorem check_sync_creates_default_repo_witness :
    check_sync true false "admin" []
      = ([default_devicetype_repo], [⟨default_devicetype_repo, "admin"⟩]) :=
  (check_sync_creates_default_repo "admin" [] rfl).1

/-! ## Claims about the dashboard reconciliation -/

/-- C2: after a successful `check_data` run, each of the seven fixed
category descriptors has exactly one `Merlin` row with its name, whose
`completed` equals the current existence check for the tracked model;
when no row with that name previously existed, the one row is exactly
the created row: `completed` from the check, `ignored = false`, and the
three link strings of the descriptor. -/
theorem check_data_upsert (ec : String → Bool)
    (entries out : List MerlinEntry)
    (h : check_data ec entries = Except.ok out)
    (d : CategoryDescriptor) (hd : d ∈ dashboard_categories) :
    (∃ e, out.filter (fun x => x.name = d.var_name) = [e]
        ∧ e.completed = ec d.nautobot_object)
    ∧ (entries.filter (fun x => x.name = d.var_name) = [] →
        out.filter (fun x => x.name = d.var_name)
          = [newMerlin d (ec d.nautobot_object)]) :=
  check_data_loop_upsert ec dashboard_categories entries out h (by decide) d hd

/-- Witness for C2: a first run over the empty table with no inventory
data creates exactly one `Manufacturers` row, the freshly built one. -/
theorem check_data_upsert_witness :
    check_data (fun _ => false) [] = Except.ok merlin_after_first_run
    ∧ (∃ e, merlin_after_first_run.filter (fun x => x.name = "Manufacturers")
          = [e] ∧ e.completed = false)
    ∧ merlin_after_first_run.filter (fun x => x.name = "Manufacturers")
        = [newMerlin
            ⟨"Manufacturer", "Manufacturers", "dcim:manufacturer_list",
              "dcim:manufacturer_add",
              "plugins:welcome_wizard:manufacturer_import"⟩ false] := by
  have h : check_data (fun _ => false) [] = Except.ok merlin_after_first_run :=
    by rfl
  have h2 := check_data_upsert (fun _ => false) [] merlin_after_first_run h
    ⟨"Manufacturer", "Manufacturers", "dcim:manufacturer_list",
      "dcim:manufacturer_add", "plugins:welcome_wizard:manufacturer_import"⟩
    (by decide)
  exact ⟨h, h2.1, h2.2 rfl⟩

/-- C3: `check_data` is idempotent: re-running it on the table a
successful run produced, with the existence checks unchanged, succeeds
and returns the very same table — so the second run creates no row,
deletes no row, and leaves `ignored`, every link field, and even every
`completed` value unchanged. -/
theorem check_data_idempotent (ec : String → Bool)
    (entries out : List MerlinEntry)
    (h : check_data ec entries = Except.ok out) :
    check_data ec out = Except.ok out := by
  unfold check_data
  apply check_data_loop_self
  intro d hd
  exact check_data_step_self ec d out
    (check_data_loop_upsert ec dashboard_categories entries out h
      (by decide) d hd).1

/-- Witness for C3 on the table produced by a concrete first run. -/
theorem check_data_idempotent_witness :
    check_data (fun _ => false) merlin_after_first_run
      = Except.ok merlin_after_first_run :=
  check_data_idempotent (fun _ => false) [] merlin_after_first_run (by rfl)

end WelcomeWizard
